import Mathlib

/-!
Shallow embedding of the Information-scraper repository
(src/scraping.py and src/scrapingmain.py) and proofs about it.

Conventions of the embedding:
  * Python strings are Lean `String`s; `str.lower()` (used only on ASCII
    data here, and matching SQLite's ASCII-only `LOWER`) is `lowerS`,
    mapping `Char.toLower` over the characters.
  * the Python substring test `needle in hay` is `pyIn`;
  * the SQLite table `articles` is a `List StoredRow`; `INSERT OR IGNORE`
    on the `url UNIQUE` column is `save_article`, which also reports
    whether the row was inserted or was already present (observable in
    SQLite via the unchanged table / zero rowcount);
  * network fetching + extraction (`article.download/parse/nlp`) is an
    oracle `net : String → Except String Article`; language detection
    (`langdetect.detect`, which can raise `LangDetectException`) is an
    oracle `detect : String → DetectResult`;
  * the thread pool's `as_completed` iteration order is an arbitrary
    permutation `order` of the submitted work items.
-/

/-- ASCII lower-casing of one character list; `Char.toLower` only folds
ASCII uppercase, which matches both Python `.lower()` on the ASCII data
involved and SQLite's `LOWER`. -/
def lowerS (s : String) : String := String.mk (s.data.map Char.toLower)

/-- Boolean list-prefix test with plain equality on characters. -/
def isPrefixB : List Char → List Char → Bool
  | [], _ => true
  | _ :: _, [] => false
  | c :: p, d :: s => c == d && isPrefixB p s

/-- Boolean substring test on character lists: `containsSub needle hay`
is true iff `needle` occurs contiguously inside `hay`. -/
def containsSub (needle : List Char) : List Char → Bool
  | [] => isPrefixB needle []
  | d :: t => isPrefixB needle (d :: t) || containsSub needle t

/-- The Python expression `needle in hay` on strings. -/
def pyIn (needle hay : String) : Bool := containsSub needle.data hay.data

/-- The whitespace characters stripped by Python `str.strip()`
(ASCII portion, the only ones relevant to this data). -/
def pyIsSpace (c : Char) : Bool :=
  c == ' ' || c == '\t' || c == '\n' || c == '\r' || c == '\x0b' || c == '\x0c'

/-- Python `str.strip()` on a character list: drop leading and trailing
whitespace. -/
def stripChars (l : List Char) : List Char :=
  ((l.dropWhile pyIsSpace).reverse.dropWhile pyIsSpace).reverse

/-- An article as produced by newspaper's extraction (`url`, `title`,
`summary`, `keywords`, `text` attributes used by the program). -/
structure Article where
  url : String
  title : String
  summary : String
  keywords : List String
  text : String
deriving Repr, DecidableEq

/-- Result of `process_article`: the article object on success, or the
formatted failure string the `except` branch returns. -/
inductive Outcome where
  | success (a : Article)
  | failure (msg : String)
deriving Repr, DecidableEq

/-- One row of the `articles` table created by `init_db` in
src/scraping.py (`id`, `source`, `title`, `url UNIQUE`, `summary`,
`keywords`, `text`). -/
structure StoredRow where
  id : Nat
  source : String
  title : String
  url : String
  summary : String
  keywords : String
  text : String
deriving Repr, DecidableEq

/-- Whether an `INSERT OR IGNORE` actually inserted or hit the existing
`url UNIQUE` row and was ignored. -/
inductive UpsertStatus where
  | inserted
  | already_present
deriving Repr, DecidableEq

/-- Result of `langdetect.detect`: a language code, or the
`LangDetectException` raised when detection is indeterminate. -/
inductive DetectResult where
  | ok (lang : String)
  | failed
deriving Repr, DecidableEq

/-- The empty `articles` table produced by `init_db` on a fresh
database file. -/
def init_db : List StoredRow := []

/-- clean_text from src/scraping.py line 42: `None`/empty becomes `""`;
otherwise all NUL characters are removed (`replace("\x00", "")`) and the
result is stripped (`strip()`). -/
def clean_text (s : Option String) : String :=
  match s with
  | none => ""
  | some t =>
    if t = "" then ""
    else String.mk (stripChars (t.data.filter (fun c => !(c == '\x00'))))

/-- The row that `save_article` (src/scraping.py line 47) binds into its
`INSERT OR IGNORE`: every field passes through `clean_text`, keywords are
first comma-joined. The `id` models the AUTOINCREMENT column. -/
def mkRow (db : List StoredRow) (a : Article) (source : String) : StoredRow :=
  { id := db.length + 1
    source := source
    title := clean_text (some a.title)
    url := clean_text (some a.url)
    summary := clean_text (some a.summary)
    keywords := clean_text (some (String.intercalate ", " a.keywords))
    text := clean_text (some a.text) }

/-- save_article from src/scraping.py line 47: `INSERT OR IGNORE` into a
table whose `url` column is UNIQUE — if a row with the same (cleaned) url
exists the statement is ignored, otherwise the row is appended. -/
def save_article (db : List StoredRow) (a : Article) (source : String) :
    List StoredRow × UpsertStatus :=
  let row := mkRow db a source
  if db.any (fun r => r.url == row.url) then (db, UpsertStatus.already_present)
  else (db ++ [row], UpsertStatus.inserted)

/-- Number of rows of the table holding a given url. -/
def urlCount (db : List StoredRow) (u : String) : Nat :=
  (db.filter (fun r => r.url == u)).length

/-- The invariant the `url TEXT UNIQUE` schema constraint enforces. -/
def dbWF (db : List StoredRow) : Prop := ∀ u, urlCount db u ≤ 1

/-- BAD_PATTERNS from src/scraping.py line 64. -/
def BAD_PATTERNS : List String :=
  ["/ads/", "/advertorial/", "/iplayer/", "/reel/", "/av/", "/promo/", "/sponsored/"]

/-- GOOD_PATTERNS from src/scraping.py line 68. -/
def GOOD_PATTERNS : List (String × List String) :=
  [("BBC", ["/news/", "/sport/"]),
   ("CNN", ["/2025/"]),
   ("Al Jazeera", []),
   ("Times of Israel", [])]

/-- The lookup `GOOD_PATTERNS.get(source, [])`. -/
def goodPatternsFor (source : String) : List String :=
  ((GOOD_PATTERNS.find? (fun p => p.1 == source)).map (fun p => p.2)).getD []

/-- is_valid_article from src/scraping.py line 76, parameterised by the
allow-list lookup (the code reads the module-level GOOD_PATTERNS dict;
the deny test runs before that dict is consulted). -/
def is_valid_article_with (goodFor : String → List String) (a : Article)
    (source : String) : Bool :=
  let url := lowerS a.url
  if BAD_PATTERNS.any (fun bad => pyIn bad url) then false
  else
    let good_patterns := goodFor source
    if !good_patterns.isEmpty && !(good_patterns.any (fun good => pyIn good url))
    then false
    else true

/-- is_valid_article exactly as in the source, with the fixed
GOOD_PATTERNS dict. -/
def is_valid_article (a : Article) (source : String) : Bool :=
  is_valid_article_with goodPatternsFor a source

/-- process_article from src/scraping.py line 88: runs
download/parse/nlp (modelled by the oracle `net`); any exception is
caught and turned into the string `"Failed to process {url}: {e}"`. -/
def process_article (net : String → Except String Article) (url : String) :
    Outcome :=
  match net url with
  | Except.ok a => Outcome.success a
  | Except.error e => Outcome.failure ("Failed to process " ++ url ++ ": " ++ e)

/-- The fetch/parse stage of scrape_sources (src/scraping.py lines
115-125): every submitted `(url, source)` pair gets one future; the
futures are consumed in completion order `order`; each yields the
`process_article` outcome paired with its work item. -/
def pipeline_outcomes (net : String → Except String Article)
    (order : List (String × String)) : List ((String × String) × Outcome) :=
  order.map (fun p => (p, process_article net p.1))

/-- The fetch/parse stage together with ThreadPoolExecutor construction
(src/scraping.py line 117): `ThreadPoolExecutor(max_workers=workers)`
raises ValueError unless `workers > 0`; `order` is the completion order,
a permutation of the submitted list. -/
def run_pipeline (workers : Int) (net : String → Except String Article)
    (order : List (String × String)) :
    Except String (List ((String × String) × Outcome)) :=
  if workers ≤ 0 then Except.error "max_workers must be greater than 0"
  else Except.ok (pipeline_outcomes net order)

/-- The language filter of scrape_sources (src/scraping.py lines
127-134): pass only when `detect` returns exactly `"en"`; a different
code or a `LangDetectException` means the article is skipped. -/
def language_pass (detect : String → DetectResult) (text : String) : Bool :=
  match detect text with
  | DetectResult.ok lang => if lang != "en" then false else true
  | DetectResult.failed => false

/-- The keyword filter of scrape_sources (src/scraping.py lines
136-141): `if keywords:` — `None` or an empty list disables the filter;
otherwise pass iff some keyword, lower-cased, occurs in the lower-cased
`title + " " + summary + " " + text`. -/
def keyword_pass (keywords : Option (List String)) (a : Article) : Bool :=
  match keywords with
  | none => true
  | some ks =>
    if ks.isEmpty then true
    else
      let text_lower := lowerS (a.title ++ " " ++ a.summary ++ " " ++ a.text)
      ks.any (fun kw => pyIn (lowerS kw) text_lower)

/-- Keyword filter as the spec words it ("the concatenation of title +
summary + body text", with no separator). Stated only to compare with
`keyword_pass`, which is what the code computes. -/
def keyword_pass_spec (keywords : Option (List String)) (a : Article) : Bool :=
  match keywords with
  | none => true
  | some ks =>
    if ks.isEmpty then true
    else
      let text_lower := lowerS (a.title ++ a.summary ++ a.text)
      ks.any (fun kw => pyIn (lowerS kw) text_lower)

/-- The filtering loop body of scrape_sources (src/scraping.py lines
119-145): failures are skipped, then the language filter, then the
keyword filter; survivors are collected in completion order. -/
def surviving (detect : String → DetectResult) (keywords : Option (List String))
    (outcomes : List ((String × String) × Outcome)) : List (Article × String) :=
  outcomes.filterMap (fun po =>
    match po.2 with
    | Outcome.failure _ => none
    | Outcome.success a =>
      if language_pass detect a.text then
        if keyword_pass keywords a then some (a, po.1.2) else none
      else none)

/-- SQLite `LIKE`, restricted to the ASCII case-insensitive default
collation: `%` matches any run of characters, `_` any single character,
anything else matches itself up to ASCII case folding. -/
def likeMatch : List Char → List Char → Bool
  | [], s => s.isEmpty
  | c :: p, s =>
    if c = '%' then s.tails.any (fun t => likeMatch p t)
    else
      match s with
      | [] => false
      | d :: t =>
        if c = '_' then likeMatch p t
        else (c.toLower == d.toLower) && likeMatch p t

/-- Case-insensitive (ASCII) list-prefix test, the way `LIKE` compares
literal pattern characters. -/
def isPrefCI : List Char → List Char → Bool
  | [], _ => true
  | _ :: _, [] => false
  | c :: p, d :: s => (c.toLower == d.toLower) && isPrefCI p s

/-- The WHERE clause of search_articles (src/scraping.py line 152):
`LOWER(summary) LIKE '%term%' OR LOWER(text) LIKE '%term%' OR
LOWER(keywords) LIKE '%term%'`. -/
def rowMatches (term : String) (r : StoredRow) : Bool :=
  let pat := ('%' :: term.data) ++ ['%']
  likeMatch pat (lowerS r.summary).data ||
  likeMatch pat (lowerS r.text).data ||
  likeMatch pat (lowerS r.keywords).data

/-- search_articles from src/scraping.py line 152: the rows the SELECT
returns (projected to the selected columns), in table order; an empty
result prints "No articles found." rather than erroring. -/
def search_articles (term : String) (db : List StoredRow) :
    List (String × String × String × String) :=
  (db.filter (rowMatches term)).map (fun r => (r.source, r.title, r.url, r.summary))

/-- Case-insensitive substring test on strings (the spec's notion of
matching for search). -/
def containsCI (needle hay : String) : Bool :=
  pyIn (lowerS needle) (lowerS hay)

/-- A term is wildcard-free when it uses no `LIKE` metacharacter. -/
def noWild (term : String) : Prop :=
  ∀ c ∈ term.data, c ≠ '%' ∧ c ≠ '_'

/-- Python slicing `l[:n]` for an arbitrary integer bound. -/
def pySlice (n : Int) (l : List α) : List α :=
  if 0 ≤ n then l.take n.toNat else l.take (l.length - (-n).toNat)

/-- The per-source cap of scrape_sources (src/scraping.py lines
108-109): `if max_per_source: source_articles =
source_articles[:max_per_source]` — `None` and `0` are falsy, so only a
non-zero cap slices. -/
def applyCap (cap : Option Int) (l : List α) : List α :=
  match cap with
  | none => l
  | some n => if n = 0 then l else pySlice n l

/-- SOURCES from src/scraping.py line 15. -/
def SOURCES : List (String × String) :=
  [("CNN", "https://edition.cnn.com"),
   ("BBC", "https://www.bbc.com"),
   ("Al Jazeera", "https://www.aljazeera.com"),
   ("Times of Israel", "https://www.timesofisrael.com")]

/-- The work items scrape_sources builds before the pool starts
(src/scraping.py lines 104-111): per source, the discovered articles
surviving is_valid_article, capped, tagged with the source name. -/
def submitted (discovered : String → List Article) (cap : Option Int) :
    List (String × String) :=
  SOURCES.flatMap (fun s =>
    ((applyCap cap ((discovered s.2).filter (fun a => is_valid_article a s.1))).map
      (fun a => (a.url, s.1))))

/-- Observable steps of a scrape_sources run, in program order. -/
inductive Event where
  | discover (source : String)
  | configError
  | fetch (url : String)
deriving Repr, DecidableEq

/-- The event trace of scrape_sources (src/scraping.py lines 100-125):
the discovery loop over SOURCES runs first; only then is
`ThreadPoolExecutor(max_workers=workers)` constructed, which raises
ValueError for a non-positive count; otherwise every submitted url is
fetched. -/
def scrape_trace (workers : Int) (discovered : String → List Article)
    (cap : Option Int) : List Event :=
  (SOURCES.map (fun s => Event.discover s.1)) ++
    (if workers ≤ 0 then [Event.configError]
     else (submitted discovered cap).map (fun p => Event.fetch p.1))

/-- A concrete fetch/extract stub (one URL fails, the rest parse into a
fixed English article), used to exercise the pipeline theorems. -/
def sampleNet : String → Except String Article := fun u =>
  if u = "bad" then Except.error "boom"
  else Except.ok ⟨u, "T", "S", [], "good text"⟩

/-- A concrete language-detection stub: French for one text,
indeterminate for another, English otherwise. -/
def sampleDetect : String → DetectResult := fun t =>
  if t = "bonjour le monde entier" then DetectResult.ok "fr"
  else if t = "xq zz" then DetectResult.failed
  else DetectResult.ok "en"

/-! Supporting lemmas (shared; none of these is a claim's theorem). -/

lemma char_toNat_ofNat_valid {m : Nat} (h : Nat.isValidChar m) :
    (Char.ofNat m).toNat = m := by
  simp [Char.ofNat, h, Char.ofNatAux, Char.toNat, UInt32.toNat, BitVec.ofNatLt]

lemma char_toLower_toLower (c : Char) : c.toLower.toLower = c.toLower := by
  unfold Char.toLower
  by_cases h : 65 ≤ c.toNat ∧ c.toNat ≤ 90
  · have hv : Nat.isValidChar (c.toNat + 32) := Or.inl (by omega)
    have h2 : (Char.ofNat (c.toNat + 32)).toNat = c.toNat + 32 :=
      char_toNat_ofNat_valid hv
    simp only [ge_iff_le, h, if_pos, and_true, true_and, if_true]
    rw [h2]
    rw [if_neg (by omega)]
  · rw [if_neg h, if_neg h]

lemma lowerS_data (s : String) : (lowerS s).data = s.data.map Char.toLower := rfl

lemma map_toLower_idem (l : List Char) :
    (l.map Char.toLower).map Char.toLower = l.map Char.toLower := by
  rw [List.map_map]
  exact List.map_congr_left (fun a _ => char_toLower_toLower a)

lemma containsSub_eq_tails (n : List Char) :
    ∀ h : List Char, containsSub n h = h.tails.any (fun t => isPrefixB n t) := by
  intro h
  induction h with
  | nil => simp [containsSub, List.tails]
  | cons d t ih => simp [containsSub, List.tails, ih]

lemma isPrefCI_eq_isPrefixB :
    ∀ t u : List Char,
      isPrefCI t u = isPrefixB (t.map Char.toLower) (u.map Char.toLower) := by
  intro t
  induction t with
  | nil => intro u; cases u <;> rfl
  | cons c p ih => intro u; cases u with
    | nil => rfl
    | cons d s => simp [isPrefCI, isPrefixB, ih]

lemma likeMatch_pct_cons (p : List Char) (s : List Char) :
    likeMatch ('%' :: p) s = s.tails.any (fun t => likeMatch p t) := by
  simp [likeMatch]

lemma likeMatch_pct_nil (s : List Char) : likeMatch ['%'] s = true := by
  rw [likeMatch_pct_cons]
  exact List.any_eq_true.mpr ⟨[], (List.mem_tails _ _).mpr List.nil_suffix, rfl⟩

lemma likeMatch_trailing_pct {t : List Char}
    (ht : ∀ c ∈ t, c ≠ '%' ∧ c ≠ '_') :
    ∀ u : List Char, likeMatch (t ++ ['%']) u = isPrefCI t u := by
  induction t with
  | nil => intro u; rw [List.nil_append, likeMatch_pct_nil]; rfl
  | cons c p ih =>
    intro u
    have hc := ht c (List.mem_cons_self c p)
    have hp : ∀ d ∈ p, d ≠ '%' ∧ d ≠ '_' :=
      fun d hd => ht d (List.mem_cons_of_mem c hd)
    cases u with
    | nil => simp [likeMatch, isPrefCI, hc.1]
    | cons d v => simp [likeMatch, isPrefCI, hc.1, hc.2, ih hp v]

lemma tails_map (f : Char → Char) :
    ∀ u : List Char, (u.map f).tails = u.tails.map (List.map f) := by
  intro u
  induction u with
  | nil => rfl
  | cons a t ih => simp [List.tails, ih]

lemma any_pointwise (l : List α) (f g : α → Bool)
    (h : ∀ x ∈ l, f x = g x) : l.any f = l.any g := by
  induction l with
  | nil => rfl
  | cons a t ih =>
    simp only [List.any_cons, h a (List.mem_cons_self a t),
      ih (fun x hx => h x (List.mem_cons_of_mem a hx))]

lemma likeMatch_pct_pct {t : List Char}
    (ht : ∀ c ∈ t, c ≠ '%' ∧ c ≠ '_') (u : List Char) :
    likeMatch ('%' :: (t ++ ['%'])) u =
      containsSub (t.map Char.toLower) (u.map Char.toLower) := by
  rw [likeMatch_pct_cons]
  rw [any_pointwise _ _ (fun v => isPrefCI t v)
    (fun v _ => likeMatch_trailing_pct ht v)]
  rw [any_pointwise _ _
    (fun v => isPrefixB (t.map Char.toLower) (v.map Char.toLower))
    (fun v _ => isPrefCI_eq_isPrefixB t v)]
  rw [containsSub_eq_tails, tails_map]
  rw [List.any_map]
  rfl

lemma containsCI_eq (needle hay : String) :
    containsCI needle hay =
      containsSub (needle.data.map Char.toLower) (hay.data.map Char.toLower) := rfl

lemma likeMatch_lowered {term : String} (hw : noWild term) (f : String) :
    likeMatch (('%' :: term.data) ++ ['%']) (lowerS f).data =
      containsCI term f := by
  have h1 := likeMatch_pct_pct (t := term.data) hw (lowerS f).data
  rw [List.cons_append, h1, lowerS_data, map_toLower_idem, containsCI_eq]

lemma rowMatches_noWild {term : String} (hw : noWild term) (r : StoredRow) :
    rowMatches term r =
      (containsCI term r.summary || containsCI term r.text ||
        containsCI term r.keywords) := by
  show (likeMatch (('%' :: term.data) ++ ['%']) (lowerS r.summary).data ||
      likeMatch (('%' :: term.data) ++ ['%']) (lowerS r.text).data ||
      likeMatch (('%' :: term.data) ++ ['%']) (lowerS r.keywords).data) = _
  rw [likeMatch_lowered hw r.summary, likeMatch_lowered hw r.text,
    likeMatch_lowered hw r.keywords]

lemma dropWhile_head_false {α : Type} (p : α → Bool) :
    ∀ (l : List α) (c : α), (l.dropWhile p).head? = some c → p c = false := by
  intro l
  induction l with
  | nil => intro c h; simp [List.dropWhile] at h
  | cons a t ih =>
    intro c h
    by_cases hp : p a
    · rw [List.dropWhile_cons, if_pos hp] at h
      exact ih c h
    · rw [List.dropWhile_cons, if_neg hp] at h
      simp only [List.head?_cons, Option.some.injEq] at h
      subst h
      exact Bool.eq_false_iff.mpr hp

lemma dropWhile_getLast? {α : Type} (p : α → Bool) :
    ∀ l : List α, l.dropWhile p ≠ [] →
      (l.dropWhile p).getLast? = l.getLast? := by
  intro l
  induction l with
  | nil => intro h; simp [List.dropWhile] at h
  | cons a t ih =>
    intro h
    by_cases hp : p a
    · rw [List.dropWhile_cons, if_pos hp] at h ⊢
      have ht : t ≠ [] := by
        intro he
        subst he
        simp [List.dropWhile] at h
      rw [ih h]
      cases t with
      | nil => exact absurd rfl ht
      | cons b u => rw [List.getLast?_cons_cons]
    · rw [List.dropWhile_cons, if_neg hp]

lemma mem_stripChars {c : Char} {l : List Char} (h : c ∈ stripChars l) :
    c ∈ l := by
  unfold stripChars at h
  rw [List.mem_reverse] at h
  have h2 : c ∈ (l.dropWhile pyIsSpace).reverse :=
    (List.dropWhile_sublist pyIsSpace).mem h
  rw [List.mem_reverse] at h2
  exact (List.dropWhile_sublist pyIsSpace).mem h2

lemma stripChars_head {l : List Char} {c : Char}
    (h : (stripChars l).head? = some c) : pyIsSpace c = false := by
  unfold stripChars at h
  rw [List.head?_reverse] at h
  have hne : (l.dropWhile pyIsSpace).reverse.dropWhile pyIsSpace ≠ [] := by
    intro he
    rw [he] at h
    simp at h
  rw [dropWhile_getLast? pyIsSpace _ hne, List.getLast?_reverse] at h
  exact dropWhile_head_false pyIsSpace l c h

lemma stripChars_last {l : List Char} {c : Char}
    (h : (stripChars l).getLast? = some c) : pyIsSpace c = false := by
  unfold stripChars at h
  rw [List.getLast?_reverse] at h
  exact dropWhile_head_false pyIsSpace _ c h

lemma clean_text_data (t : String) (h : t ≠ "") :
    (clean_text (some t)).data =
      stripChars (t.data.filter (fun c => !(c == '\x00'))) := by
  simp [clean_text, h]

lemma dbWF_single (r : StoredRow) : dbWF [r] := by
  intro u
  simpa [urlCount] using List.length_filter_le (fun x => x.url == u) [r]

lemma urlCount_pos {db : List StoredRow} {r : StoredRow} (hr : r ∈ db)
    {u : String} (hu : r.url = u) : 1 ≤ urlCount db u := by
  have hm : r ∈ db.filter (fun x => x.url == u) :=
    List.mem_filter.mpr ⟨hr, by simp [hu]⟩
  have hp := List.length_pos.mpr (List.ne_nil_of_mem hm)
  simpa [urlCount] using hp

/-! Claim theorems. -/

/-- C1: when the table (well-formed per its UNIQUE url constraint)
already holds a row for the article's cleaned url, save_article returns
the table unchanged — so no field of the existing row is altered
(first-write-wins), no error is raised — reports already_present, and
exactly one row for that url remains. -/
theorem C1_upsert_if_present (db : List StoredRow) (a : Article)
    (source : String) (hwf : dbWF db)
    (hmem : ∃ r ∈ db, r.url = clean_text (some a.url)) :
    save_article db a source = (db, UpsertStatus.already_present) ∧
      urlCount db (clean_text (some a.url)) = 1 := by
  obtain ⟨r, hr, hu⟩ := hmem
  have hany : db.any (fun x => x.url == (mkRow db a source).url) = true :=
    List.any_eq_true.mpr ⟨r, hr, by simp [mkRow, hu]⟩
  refine ⟨?_, le_antisymm (hwf _) (urlCount_pos hr hu)⟩
  simp only [save_article]
  rw [if_pos hany]

/-- C1 witness at a concrete one-row table and a same-url article. -/
theorem C1_upsert_if_present_witness :
    save_article [⟨1, "CNN", "t", "u", "s", "k", "x"⟩]
        ⟨"u", "t2", "s2", [], "x2"⟩ "BBC"
      = ([⟨1, "CNN", "t", "u", "s", "k", "x"⟩], UpsertStatus.already_present) ∧
    urlCount [⟨1, "CNN", "t", "u", "s", "k", "x"⟩] (clean_text (some "u")) = 1 :=
  C1_upsert_if_present [⟨1, "CNN", "t", "u", "s", "k", "x"⟩]
    ⟨"u", "t2", "s2", [], "x2"⟩ "BBC" (dbWF_single _)
    ⟨⟨1, "CNN", "t", "u", "s", "k", "x"⟩, by decide, by decide⟩

/-- C2: with any positive worker count the pipeline yields exactly one
outcome per submitted work item: the outcome list has the submitted
length, its work items are a permutation of the submitted list (no
duplicates, no omissions), every outcome is a Success or a Failure,
and the result does not depend on the worker count. -/
theorem C2_one_outcome_per_url (workers : Int)
    (net : String → Except String Article)
    (urls order : List (String × String))
    (hw : 0 < workers) (hperm : List.Perm order urls) :
    run_pipeline workers net order = Except.ok (pipeline_outcomes net order) ∧
    (pipeline_outcomes net order).length = urls.length ∧
    List.Perm ((pipeline_outcomes net order).map Prod.fst) urls ∧
    (∀ po ∈ pipeline_outcomes net order,
      (∃ a, po.2 = Outcome.success a) ∨ (∃ m, po.2 = Outcome.failure m)) ∧
    (∀ workers2 : Int, 0 < workers2 →
      run_pipeline workers2 net order = run_pipeline workers net order) := by
  have hok : ∀ w : Int, 0 < w →
      run_pipeline w net order = Except.ok (pipeline_outcomes net order) := by
    intro w hw2
    unfold run_pipeline
    rw [if_neg (by omega)]
  have hfst : (pipeline_outcomes net order).map Prod.fst = order := by
    unfold pipeline_outcomes
    rw [List.map_map]
    have hcomp :
        (Prod.fst ∘ fun p : String × String => (p, process_article net p.1)) = id :=
      rfl
    rw [hcomp, List.map_id]
  refine ⟨hok workers hw, ?_, ?_, ?_, ?_⟩
  · unfold pipeline_outcomes
    rw [List.length_map, hperm.length_eq]
  · rw [hfst]; exact hperm
  · intro po hpo
    unfold pipeline_outcomes at hpo
    obtain ⟨p, hp, hpe⟩ := List.mem_map.mp hpo
    cases hnet : net p.1 with
    | ok a =>
      left
      exact ⟨a, by rw [← hpe]; simp [process_article, hnet]⟩
    | error e =>
      right
      exact ⟨"Failed to process " ++ p.1 ++ ": " ++ e,
        by rw [← hpe]; simp [process_article, hnet]⟩
  · intro w2 hw2
    rw [hok w2 hw2, hok workers hw]

/-- C2 witness: a two-url batch with two workers. -/
theorem C2_one_outcome_per_url_witness :
    run_pipeline 2 sampleNet [("a", "CNN"), ("bad", "BBC")] =
      Except.ok (pipeline_outcomes sampleNet [("a", "CNN"), ("bad", "BBC")]) :=
  (C2_one_outcome_per_url 2 sampleNet [("a", "CNN"), ("bad", "BBC")]
    [("a", "CNN"), ("bad", "BBC")] (by decide) (List.Perm.refl _)).1

/-- C3: a url whose fetch/extract raises is converted into a Failure
outcome carrying that url and the error text; the pipeline still
returns normally and every submitted url still has an outcome. -/
theorem C3_failure_contained (workers : Int)
    (net : String → Except String Article)
    (urls order : List (String × String)) (u src e : String)
    (hw : 0 < workers) (hperm : List.Perm order urls)
    (hu : (u, src) ∈ urls) (hne : net u = Except.error e) :
    run_pipeline workers net order = Except.ok (pipeline_outcomes net order) ∧
    ((u, src), Outcome.failure ("Failed to process " ++ u ++ ": " ++ e))
        ∈ pipeline_outcomes net order ∧
    (∀ v tgt, (v, tgt) ∈ urls →
      ∃ oc, ((v, tgt), oc) ∈ pipeline_outcomes net order) := by
  refine ⟨?_, ?_, ?_⟩
  · unfold run_pipeline
    rw [if_neg (by omega)]
  · have ho : (u, src) ∈ order := hperm.mem_iff.mpr hu
    unfold pipeline_outcomes
    exact List.mem_map.mpr ⟨(u, src), ho, by simp [process_article, hne]⟩
  · intro v tgt hv
    unfold pipeline_outcomes
    exact ⟨process_article net v,
      List.mem_map.mpr ⟨(v, tgt), hperm.mem_iff.mpr hv, rfl⟩⟩

/-- C3 witness: the failing url's outcome is present. -/
theorem C3_failure_contained_witness :
    ((("bad", "BBC"), Outcome.failure "Failed to process bad: boom")
        ∈ pipeline_outcomes sampleNet [("a", "CNN"), ("bad", "BBC")]) :=
  (C3_failure_contained 2 sampleNet [("a", "CNN"), ("bad", "BBC")]
    [("a", "CNN"), ("bad", "BBC")] "bad" "BBC" "boom" (by decide)
    (List.Perm.refl _) (by decide) rfl).2.1

/-- C4: a url whose lower-casing contains a deny-list fragment is
rejected by the classifier whatever the allow-list lookup says — in
particular with the program's own GOOD_PATTERNS. -/
theorem C4_deny_precedes_allow (goodFor : String → List String)
    (a : Article) (source : String)
    (h : BAD_PATTERNS.any (fun bad => pyIn bad (lowerS a.url)) = true) :
    is_valid_article_with goodFor a source = false ∧
    is_valid_article a source = false := by
  constructor
  · simp only [is_valid_article_with]
    rw [if_pos h]
  · simp only [is_valid_article, is_valid_article_with]
    rw [if_pos h]

/-- C4 witness: an /ads/ url is rejected for CNN despite its
"/2025/"-only allow-list being irrelevant. -/
theorem C4_deny_precedes_allow_witness :
    is_valid_article ⟨"https://x.com/ads/item", "t", "s", [], "x"⟩ "CNN" = false :=
  (C4_deny_precedes_allow goodPatternsFor
    ⟨"https://x.com/ads/item", "t", "s", [], "x"⟩ "CNN" (by decide)).2

/-- C5 counterexample: the keyword "bc" IS a case-insensitive substring
of the plain concatenation of title ("ab"), summary ("cd") and body
(""), yet the filter rejects the article — the code joins the fields
with spaces, so the claimed iff fails at this input. -/
theorem C5_keyword_plain_concat_counterexample :
    keyword_pass (some ["bc"]) ⟨"u", "ab", "cd", [], ""⟩ = false ∧
    pyIn (lowerS "bc") (lowerS ("ab" ++ "cd" ++ "")) = true ∧
    keyword_pass_spec (some ["bc"]) ⟨"u", "ab", "cd", [], ""⟩ = true := by
  decide

/-- C5 amended: for a configured non-empty keyword list the filter
passes iff some keyword occurs case-insensitively in the
space-separated concatenation `title ++ " " ++ summary ++ " " ++ body`;
with no keyword list configured (None, or an empty list) the filter
passes every article. -/
theorem C5_keyword_filter (ks : List String) (a : Article) (hne : ks ≠ []) :
    (keyword_pass (some ks) a = true ↔
      ∃ kw ∈ ks, pyIn (lowerS kw)
        (lowerS (a.title ++ " " ++ a.summary ++ " " ++ a.text)) = true) ∧
    keyword_pass none a = true ∧
    keyword_pass (some []) a = true := by
  refine ⟨?_, rfl, rfl⟩
  simp only [keyword_pass]
  rw [if_neg (by simp [List.isEmpty_iff, hne])]
  exact List.any_eq_true

/-- C5 witness: keyword "election" matches "Election Day"
case-insensitively. -/
theorem C5_keyword_filter_witness :
    keyword_pass (some ["election"]) ⟨"u", "t", "s", [], "On Election Day"⟩
      = true := by
  have h := (C5_keyword_filter ["election"]
    ⟨"u", "t", "s", [], "On Election Day"⟩ (by decide)).1
  exact h.mpr ⟨"election", by decide, by decide⟩

/-- C6: the language filter rejects on a detected language other than
"en", rejects (without raising) on indeterminate detection, passes on
"en"; and a rejected article is dropped from the survivors that the
run goes on to persist — the same terminal action for both reject
cases. -/
theorem C6_language_filter (detect : String → DetectResult) (text : String) :
    (∀ lang, detect text = DetectResult.ok lang → lang ≠ "en" →
      language_pass detect text = false) ∧
    (detect text = DetectResult.failed → language_pass detect text = false) ∧
    (detect text = DetectResult.ok "en" → language_pass detect text = true) ∧
    (∀ keywords outs (a : Article) (src : String),
      language_pass detect a.text = false →
        (a, src) ∉ surviving detect keywords outs) := by
  refine ⟨?_, ?_, ?_, ?_⟩
  · intro lang hd hne
    simp [language_pass, hd, hne]
  · intro hd
    simp [language_pass, hd]
  · intro hd
    simp [language_pass, hd]
  · intro keywords outs a src hlp hmem
    unfold surviving at hmem
    obtain ⟨po, hpo, heq⟩ := List.mem_filterMap.mp hmem
    split at heq
    · exact Option.noConfusion heq
    · split at heq
      · split at heq
        · rename_i a2 hsucc hl hk
          simp only [Option.some.injEq, Prod.mk.injEq] at heq
          rw [heq.1] at hl
          rw [hlp] at hl
          exact Bool.noConfusion hl
        · exact Option.noConfusion heq
      · exact Option.noConfusion heq

/-- C6 witness: the stub detector rejects French, rejects an
indeterminate two-word body, and passes English. -/
theorem C6_language_filter_witness :
    language_pass sampleDetect "bonjour le monde entier" = false ∧
    language_pass sampleDetect "xq zz" = false ∧
    language_pass sampleDetect "plain english text" = true :=
  ⟨(C6_language_filter sampleDetect "bonjour le monde entier").1 "fr" rfl
      (by decide),
    (C6_language_filter sampleDetect "xq zz").2.1 rfl,
    (C6_language_filter sampleDetect "plain english text").2.2.1 rfl⟩

/-- C7 counterexample: the term "a_c" is a case-insensitive substring
of none of the row's searched fields (summary "abc", text "",
keywords ""), yet search returns the row: `_` is a LIKE wildcard, so
the matching performed is not substring matching and a non-matching
store yields a non-empty result. -/
theorem C7_search_counterexample :
    (containsCI "a_c" "abc" = false ∧ containsCI "a_c" "" = false) ∧
    search_articles "a_c" [⟨1, "CNN", "t", "u", "abc", "", ""⟩]
      = [("CNN", "t", "u", "abc")] := by
  decide

/-- C7 amended: for every wildcard-free term (no `%`, no `_`), search
returns exactly the stored rows with a case-insensitive substring match
of the term in summary, body text, or keywords, projected to the
selected columns in table order; when no row matches it returns the
empty list rather than an error. -/
theorem C7_search_substring (term : String) (db : List StoredRow)
    (hw : noWild term) :
    search_articles term db =
      (db.filter (fun r => containsCI term r.summary ||
          containsCI term r.text || containsCI term r.keywords)).map
        (fun r => (r.source, r.title, r.url, r.summary)) ∧
    ((∀ r ∈ db, containsCI term r.summary = false ∧
        containsCI term r.text = false ∧ containsCI term r.keywords = false) →
      search_articles term db = []) := by
  have hfe : db.filter (rowMatches term) =
      db.filter (fun r => containsCI term r.summary ||
        containsCI term r.text || containsCI term r.keywords) :=
    List.filter_congr (fun r _ => rowMatches_noWild hw r)
  constructor
  · unfold search_articles
    rw [hfe]
  · intro hnone
    unfold search_articles
    have hnil : db.filter (rowMatches term) = [] := by
      rw [hfe]
      apply List.filter_eq_nil_iff.mpr
      intro r hr
      obtain ⟨h1, h2, h3⟩ := hnone r hr
      simp [h1, h2, h3]
    rw [hnil]
    rfl

/-- C7 witness: "peace" finds nothing in an empty store and finds the
row whose summary contains it. -/
theorem C7_search_substring_witness :
    search_articles "peace" [] = [] ∧
    search_articles "peace" [⟨1, "CNN", "t", "u", "world peace now", "", ""⟩]
      = [("CNN", "t", "u", "world peace now")] := by
  constructor
  · exact (C7_search_substring "peace" [] (by unfold noWild; decide)).2 (by decide)
  · rw [(C7_search_substring "peace"
      [⟨1, "CNN", "t", "u", "world peace now", "", ""⟩]
      (by unfold noWild; decide)).1]
    decide

/-- C8 counterexample: the control byte 0x01 survives cleaning — the
stored title of an article titled "a\x01b" still contains a
non-NUL control character, so "no stored field ever contains a NUL or
other control byte" fails. -/
theorem C8_control_byte_counterexample :
    (mkRow [] ⟨"u", "a\x01b", "s", [], "x"⟩ "CNN").title = "a\x01b" ∧
    '\x01' ∈ (mkRow [] ⟨"u", "a\x01b", "s", [], "x"⟩ "CNN").title.data ∧
    '\x01'.val < 32 ∧ '\x01' ≠ '\x00' := by
  decide

/-- C8 amended: every stored field passes through clean_text, which
removes every NUL byte and trims leading/trailing whitespace (so no
stored field contains a NUL, and none starts or ends with whitespace),
and a missing or empty input field is stored as the empty string;
control bytes other than NUL are not removed from the interior. -/
theorem C8_stored_fields_clean (a : Article) (source : String)
    (db : List StoredRow) (s : Option String) :
    (∀ c ∈ (clean_text s).data, c ≠ '\x00') ∧
    (∀ c, (clean_text s).data.head? = some c → pyIsSpace c = false) ∧
    (∀ c, (clean_text s).data.getLast? = some c → pyIsSpace c = false) ∧
    clean_text none = "" ∧ clean_text (some "") = "" ∧
    mkRow db a source =
      { id := db.length + 1
        source := source
        title := clean_text (some a.title)
        url := clean_text (some a.url)
        summary := clean_text (some a.summary)
        keywords := clean_text (some (String.intercalate ", " a.keywords))
        text := clean_text (some a.text) } := by
  refine ⟨?_, ?_, ?_, rfl, rfl, rfl⟩
  · intro c hc
    cases s with
    | none => simp [clean_text] at hc
    | some t =>
      by_cases ht : t = ""
      · simp [clean_text, ht] at hc
      · rw [clean_text_data t ht] at hc
        have hm := List.mem_filter.mp (mem_stripChars hc)
        intro hcc
        subst hcc
        simpa using hm.2
  · intro c hc
    cases s with
    | none => simp [clean_text] at hc
    | some t =>
      by_cases ht : t = ""
      · simp [clean_text, ht] at hc
      · rw [clean_text_data t ht] at hc
        exact stripChars_head hc
  · intro c hc
    cases s with
    | none => simp [clean_text] at hc
    | some t =>
      by_cases ht : t = ""
      · simp [clean_text, ht] at hc
      · rw [clean_text_data t ht] at hc
        exact stripChars_last hc

/-- C8 witness: the cleaned " a b " starts with the non-space 'a'. -/
theorem C8_stored_fields_clean_witness : pyIsSpace 'a' = false :=
  (C8_stored_fields_clean ⟨"u", "t", "s", [], "x"⟩ "CNN" []
    (some " a b ")).2.1 'a' rfl

/-- C9 counterexample: with worker count 0, the run does not fail
before work is performed — the trace opens with the discovery of every
source and only then hits the configuration error. -/
theorem C9_not_before_discovery_counterexample :
    (scrape_trace 0 (fun _ => []) none).head? = some (Event.discover "CNN") ∧
    Event.configError ∈ scrape_trace 0 (fun _ => []) none ∧
    scrape_trace 0 (fun _ => []) none =
      [Event.discover "CNN", Event.discover "BBC",
       Event.discover "Al Jazeera", Event.discover "Times of Israel",
       Event.configError] := by
  decide

/-- C9 amended: a zero or negative worker count makes the run raise a
configuration error when the pool is constructed — after discovery has
run for every source, but before any fetch/parse work is scheduled or
performed (no fetch event ever occurs). -/
theorem C9_config_error_after_discovery (workers : Int)
    (discovered : String → List Article) (cap : Option Int)
    (hw : workers ≤ 0) :
    scrape_trace workers discovered cap =
      (SOURCES.map (fun s => Event.discover s.1)) ++ [Event.configError] ∧
    (∀ u, Event.fetch u ∉ scrape_trace workers discovered cap) := by
  have h1 : scrape_trace workers discovered cap =
      (SOURCES.map (fun s => Event.discover s.1)) ++ [Event.configError] := by
    unfold scrape_trace
    rw [if_pos hw]
  refine ⟨h1, ?_⟩
  intro u hmem
  rw [h1] at hmem
  rcases List.mem_append.mp hmem with h | h
  · obtain ⟨s, _, hs⟩ := List.mem_map.mp h
    exact Event.noConfusion hs
  · simp at h

/-- C9 witness at worker count 0. -/
theorem C9_config_error_after_discovery_witness :
    scrape_trace 0 (fun _ => []) (some 5) =
      (SOURCES.map (fun s => Event.discover s.1)) ++ [Event.configError] :=
  (C9_config_error_after_discovery 0 (fun _ => []) (some 5) (by decide)).1

/-- C10: a cap of None or 0 leaves the eligible list untouched (every
eligible article is submitted), and only a positive cap truncates to
the first `cap` elements. -/
theorem C10_zero_cap_means_no_limit (l : List Article)
    (discovered : String → List Article) :
    applyCap none l = l ∧
    applyCap (some 0) l = l ∧
    (∀ n : Int, 0 < n → applyCap (some n) l = l.take n.toNat) ∧
    submitted discovered none = submitted discovered (some 0) := by
  have h0 : ∀ (m : List Article), applyCap (some 0) m = m := by
    intro m
    simp [applyCap]
  refine ⟨rfl, h0 l, ?_, ?_⟩
  · intro n hn
    simp only [applyCap, pySlice]
    rw [if_neg (by omega), if_pos (by omega)]
  · rfl

/-- C10 witness: cap 2 keeps the first two articles; cap 0 keeps all. -/
theorem C10_zero_cap_means_no_limit_witness :
    applyCap (some 2) [(⟨"u", "t", "s", [], "x"⟩ : Article),
        ⟨"v", "t", "s", [], "x"⟩, ⟨"w", "t", "s", [], "x"⟩] =
      List.take ((2 : Int).toNat)
        [(⟨"u", "t", "s", [], "x"⟩ : Article), ⟨"v", "t", "s", [], "x"⟩,
         ⟨"w", "t", "s", [], "x"⟩] ∧
    applyCap (some 0) [(⟨"u", "t", "s", [], "x"⟩ : Article)] =
      [(⟨"u", "t", "s", [], "x"⟩ : Article)] :=
  ⟨(C10_zero_cap_means_no_limit
      [⟨"u", "t", "s", [], "x"⟩, ⟨"v", "t", "s", [], "x"⟩,
       ⟨"w", "t", "s", [], "x"⟩] (fun _ => [])).2.2.1 2 (by decide),
    (C10_zero_cap_means_no_limit [⟨"u", "t", "s", [], "x"⟩]
      (fun _ => [])).2.1⟩
